import Mathlib

/-!
Shallow embedding of `src/MusePlotting.py` (a streaming EEG plotting /
logging script) and verification of the specification's claims about it.

Modelling conventions:
* Scalars are rationals (`ℚ`); NumPy's NaN sentinel used to pre-fill the
  rolling buffers is represented by the distinguished value `Val.nan`.
* `scipy.signal.lfilter` is embedded by its documented direct-form-II
  transposed difference equation with zero initial conditions, over
  coefficient lists `b`, `a` normalized by `a[0]` (exactly scipy's
  semantics; `lfilterStep` computes one sample, `lfilter` folds it over the
  input with the all-zero initial state).
* `scipy.signal.butter` computes floating-point Butterworth coefficients;
  the numeric coefficient values are not re-derived here.  Instead the
  embedding is parametrized by a coefficient-design function
  `design : ℕ → ℚ → ℚ → List ℚ × List ℚ` standing for
  `butter(order, [low, high])`; butter's documented input validation on the
  normalized critical frequencies is embedded as `butterCheck`.
-/

/-- A NumPy array cell: either the `np.nan` fill sentinel used by
`np.full(buffer_size, np.nan)` (source line 41) or an actual number. -/
inductive Val
  | nan
  | val (x : ℚ)
deriving DecidableEq, Repr

/-- Embedding of `np.roll(buf, -1)` (source lines 79, 90): every element
moves one slot toward the front and the first element wraps to the end.
`np.roll` allocates and returns a new array. -/
def roll1 (l : List Val) : List Val := l.drop 1 ++ l.take 1

/-- Embedding of the in-place assignment `buf[-1] = v` (source lines 80,
91): replace the final slot of the array. -/
def setLast (l : List Val) (v : Val) : List Val := l.dropLast ++ [v]

/-- One rolling-buffer push as the source performs it: roll left by one,
then overwrite the last slot with the new sample (lines 79-80, 90-91). -/
def pushVal (l : List Val) (x : ℚ) : List Val := setLast (roll1 l) (Val.val x)

/-- Feed a whole list of samples, oldest first, through `pushVal`. -/
def pushAll (l : List Val) (xs : List ℚ) : List Val := xs.foldl pushVal l

/-- Validation errors raised by `scipy.signal.butter` (documented
behaviour of the external library): digital critical frequencies must
satisfy 0 < Wn < 1, and for a bandpass design Wn[0] must be below Wn[1]. -/
inductive FilterError
  | freqOutOfRange
  | bandNotIncreasing
deriving DecidableEq, Repr

/-- Input validation performed by `scipy.signal.butter` on the normalized
cutoffs, as documented: each critical frequency must lie strictly between
0 and 1, and the band edges must be strictly increasing. -/
def butterCheck (low high : ℚ) : Option FilterError :=
  if low ≤ 0 ∨ 1 ≤ low ∨ high ≤ 0 ∨ 1 ≤ high then some FilterError.freqOutOfRange
  else if high ≤ low then some FilterError.bandNotIncreasing
  else none

/-- One step of `scipy.signal.lfilter`: the documented direct-form-II
transposed difference equation.  With coefficients normalized by `a[0]`,
the output is `y = (b0/a0) * x + z0` and the carried state is
`z_i = (b_ i+1 /a0) * x + z_ i+1 - (a_ i+1 /a0) * y`, with lists
implicitly zero-extended to `max (length b) (length a)`. -/
def lfilterStep (b a : List ℚ) (z : List ℚ) (x : ℚ) : ℚ × List ℚ :=
  let a0 := a.headD 1
  let m := max b.length a.length
  let y := (b.headD 0 / a0) * x + z.headD 0
  let z2 := (List.range (m - 1)).map fun i =>
    (b.getD (i + 1) 0 / a0) * x + z.getD (i + 1) 0 - (a.getD (i + 1) 0 / a0) * y
  (y, z2)

/-- Embedding of `scipy.signal.lfilter(b, a, data)`: fold the one-sample
step over the input with the all-zero initial state (scipy uses zero
initial conditions when no `zi` argument is passed, as in this script). -/
def lfilter (b a : List ℚ) (data : List ℚ) : List ℚ :=
  (data.foldl
    (fun acc xi =>
      let r := lfilterStep b a acc.2 xi
      (acc.1 ++ [r.1], r.2))
    (([] : List ℚ), List.replicate (max b.length a.length - 1) (0 : ℚ))).1

/-- Embedding of `bandpass_filter(data, lowcut, highcut, fs, order=4)`
(source lines 31-38): normalize the cutoffs by the Nyquist frequency
`0.5 * fs`, design Butterworth coefficients with `butter` (validation
embedded by `butterCheck`, numeric design abstracted by the `design`
parameter), then run `lfilter` on the data with zero initial state. -/
def bandpass_filter (design : ℕ → ℚ → ℚ → List ℚ × List ℚ)
    (data : List ℚ) (lowcut highcut fs : ℚ) (order : ℕ) :
    Except FilterError (List ℚ) :=
  let nyquist := 0.5 * fs
  let low := lowcut / nyquist
  let high := highcut / nyquist
  match butterCheck low high with
  | some e => Except.error e
  | none =>
    let ba := design order low high
    Except.ok (lfilter ba.1 ba.2 data)

/-- The main loop's per-sample filter invocation for one (band, channel)
stream (source line 89): each incoming scalar is wrapped in a fresh
one-element list, fed to `bandpass_filter` with order 4, and the single
output element is taken. -/
def processSeq (design : ℕ → ℚ → ℚ → List ℚ × List ℚ)
    (lowcut highcut fs : ℚ) (xs : List ℚ) : List (Except FilterError ℚ) :=
  xs.map fun x => (bandpass_filter design [x] lowcut highcut fs 4).map (·.headD 0)

/-- Muse sampling rate, `fs = 256` (source line 18). -/
def fs : ℚ := 256

/-- Rolling-buffer capacity, `buffer_size = 256 * 5` — five seconds of
data at the sampling rate (source line 19). -/
def buffer_size : ℕ := 256 * 5

/-- Channel names (source line 20). -/
def channels : List String := ["Channel 1", "Channel 2", "Channel 3", "Channel 4"]

/-- Frequency-band table `BANDS` (source lines 23-28): an ordered mapping
of band name to (low, high) cutoffs in Hz. -/
def BANDS : List (String × ℚ × ℚ) :=
  [("Delta", 1, 4), ("Theta", 4, 8), ("Alpha", 8, 13), ("Beta", 13, 30)]

/-- Band-table setup as the source performs it (lines 23-28): `BANDS` is a
plain dict literal, so configuring the bands stores the entries verbatim
and runs no validation — there is no construction step that could fail. -/
def bandsSetup (entries : List (String × ℚ × ℚ)) : List (String × ℚ × ℚ) := entries

/-- Low cutoff of the k-th configured band. -/
def bandLow (k : Fin 4) : ℚ := ((BANDS.getD k.val ("", 0, 0)).2).1

/-- High cutoff of the k-th configured band. -/
def bandHigh (k : Fin 4) : ℚ := ((BANDS.getD k.val ("", 0, 0)).2).2

/-- The scalar pushed into a filtered buffer each tick:
`bandpass_filter([sample[i]], low, high, fs)[0]` (source line 89).  The
error branch is unreachable for the four configured bands at `fs = 256`
(all cutoff pairs pass butter's validation); it defaults to 0 so the
function stays total. -/
def filteredSampleOf (design : ℕ → ℚ → ℚ → List ℚ × List ℚ)
    (k : Fin 4) (x : ℚ) : ℚ :=
  match bandpass_filter design [x] (bandLow k) (bandHigh k) fs 4 with
  | Except.ok l => l.headD 0
  | Except.error _ => 0

/-- A CSV cell: a header string, a plain number (timestamp or raw channel
reading), or a buffer cell copied out of a filtered buffer. -/
inductive Cell
  | str (s : String)
  | num (q : ℚ)
  | valc (v : Val)
deriving DecidableEq, Repr

/-- The CSV header row (source line 101):
`["Timestamp"] + channels + [band ++ " - " ++ ch for band in BANDS for ch in channels]`. -/
def headerRow : List Cell :=
  Cell.str "Timestamp" :: (channels.map Cell.str ++
    BANDS.flatMap fun b => channels.map fun ch => Cell.str (b.1 ++ " - " ++ ch))

/-- Everything the save branch reads at one tick: the sample's timestamp,
the raw sample per channel, and the filtered buffers per (band, channel). -/
def SaveInput : Type := ℚ × (Fin 4 → ℚ) × (Fin 4 → Fin 4 → List Val)

/-- The data row the save branch builds (source lines 108-110):
`row = [timestamp] + sample`, then for each band in order the latest
(`[-1]`) element of each channel's filtered buffer is appended. -/
def rowOf (inp : SaveInput) : List Cell :=
  Cell.num inp.1 ::
    ((List.ofFn fun i : Fin 4 => Cell.num (inp.2.1 i)) ++
      (List.finRange 4).flatMap fun k =>
        (List.finRange 4).map fun i => Cell.valc ((inp.2.2 k i).getLastD Val.nan))

/-- One CSV write (source lines 99-111): the file is opened in append
mode, the header row is written first if and only if the file is empty
(`csvfile.tell() == 0`), then the data row is appended. -/
def writeCsv (file : List (List Cell)) (row : List Cell) : List (List Cell) :=
  file ++ (if file.isEmpty then [headerRow] else []) ++ [row]

/-- Fold a sequence of save ticks over an initially empty file. -/
def runSaves (inputs : List SaveInput) : List (List Cell) :=
  inputs.foldl (fun f inp => writeCsv f (rowOf inp)) []

/-- Persistence interval `save_interval = 20` seconds (source line 65). -/
def save_interval : ℚ := 20

/-- Exceptions that can escape the loop body: a user interrupt, or an
I/O error raised by the CSV sink (`open`/`writerow`). -/
inductive LoopExc
  | keyboardInterrupt
  | sinkIOError
deriving DecidableEq, Repr

/-- The save branch (source lines 98-113): if
`now - last_save_time >= save_interval`, write the row to the CSV sink
and then set `last_save_time` to a fresh `time.time()` reading taken
after the write (`nowAfter`); otherwise do nothing.  A failing sink
raises inside the `with` block, before line 113 runs, so on failure
`last_save_time` is not advanced.  Returns (flushed, new last-save time,
new file contents). -/
def saveBranch (last now nowAfter : ℚ) (file : List (List Cell))
    (row : List Cell) (sinkOk : Bool) :
    Except LoopExc (Bool × ℚ × List (List Cell)) :=
  if save_interval ≤ now - last then
    if sinkOk then Except.ok (true, nowAfter, writeCsv file row)
    else Except.error LoopExc.sinkIOError
  else Except.ok (false, last, file)

/-- Run the persistence gate over a list of attempt times with a healthy
sink and an instantaneous write (the post-write clock reading equals the
compared one), collecting the flushed flags.  `start` is the clock
reading stored into `last_save_time` at startup (source line 66). -/
def runGate (start : ℚ) (times : List ℚ) : List Bool :=
  (times.foldl
    (fun acc t =>
      match saveBranch acc.2 t t [] [] true with
      | Except.ok r => (acc.1 ++ [r.1], r.2.1)
      | Except.error _ => (acc.1, acc.2))
    (([] : List Bool), start)).1

/-- The loop state the save branch touches: the last flush time, the CSV
file contents, and how many loop iterations have completed. -/
structure LoopSt where
  last_save_time : ℚ
  file : List (List Cell)
  processed : ℕ
deriving DecidableEq, Repr

/-- One loop iteration's persistence step, at clock reading `now` with
row `row`; `sinkOk` says whether the CSV sink succeeds this tick.  A sink
failure raises `sinkIOError` out of the iteration. -/
def loopTick (st : LoopSt) (t : ℚ × List Cell × Bool) : Except LoopExc LoopSt :=
  match saveBranch st.last_save_time t.1 t.1 st.file t.2.1 t.2.2 with
  | Except.ok r => Except.ok ⟨r.2.1, r.2.2, st.processed + 1⟩
  | Except.error e => Except.error e

/-- Run the sampling loop over a list of ticks.  An exception raised by
an iteration stops the loop immediately: the remaining ticks are never
processed and the state from before the failing iteration is what
remains (source lines 69-116 — the `while True` body has no internal
exception handler). -/
def runLoop (st : LoopSt) : List (ℚ × List Cell × Bool) → LoopSt × Option LoopExc
  | [] => (st, none)
  | t :: ts =>
    match loopTick st t with
    | Except.ok st2 => runLoop st2 ts
    | Except.error e => (st, some e)

/-- The program-level handler (source lines 118-122): `except
KeyboardInterrupt` swallows a user interrupt; every other exception —
in particular a sink I/O error — propagates out and terminates the
process. -/
def handleTop : Option LoopExc → Option LoopExc
  | some LoopExc.keyboardInterrupt => none
  | e => e

/-- The rolling-buffer state the loop mutates: `raw_buffers` holds one
array per channel (source line 41), `filtered_buffers` one array per
(band, channel) pair (source line 42). -/
structure BufferState where
  raw : Fin 4 → List Val
  filtered : Fin 4 → Fin 4 → List Val

/-- Initial buffers: every array is `np.full(buffer_size, np.nan)`
(source lines 41-42). -/
def initBuffers : BufferState :=
  ⟨fun _ => List.replicate buffer_size Val.nan,
   fun _ _ => List.replicate buffer_size Val.nan⟩

/-- One loop iteration's buffer updates (source lines 78-91): push the
new sample into each channel's raw buffer and the per-band filtered
sample into each (band, channel) filtered buffer. -/
def tickBuffers (design : ℕ → ℚ → ℚ → List ℚ × List ℚ)
    (st : BufferState) (sample : Fin 4 → ℚ) : BufferState :=
  ⟨fun i => pushVal (st.raw i) (sample i),
   fun k i => pushVal (st.filtered k i) (filteredSampleOf design k (sample i))⟩

/-- Buffer state after `n` loop iterations on the sample stream `s`. -/
def buffersAfter (design : ℕ → ℚ → ℚ → List ℚ × List ℚ)
    (s : ℕ → Fin 4 → ℚ) : ℕ → BufferState
  | 0 => initBuffers
  | n + 1 => tickBuffers design (buffersAfter design s n) (s n)

/-- Heap model for the plot-publication aliasing question, over `W`
windows (the script has 4 raw and 16 filtered windows, all treated
alike).  `store` is the set of allocated NumPy arrays, identified by
allocation index; `bufId w` is the array the buffers dict currently
points to for window `w`; `lineId w` is the array the window's `Line2D`
object holds after the last `set_data` call (source lines 83, 94 —
`set_data` stores the passed array by reference, without copying). -/
structure PlotState (W : ℕ) where
  store : List (List Val)
  bufId : Fin W → ℕ
  lineId : Fin W → ℕ

/-- One window's per-tick processing (source lines 79-84 for raw windows,
90-95 for filtered ones): `np.roll` reads the current array and allocates
a fresh one, the dict entry is rebound to it, the in-place assignment
`buf[-1] = x` mutates that fresh array, and `set_data` hands the line a
reference to it. -/
def windowStep {W : ℕ} (st : PlotState W) (w : Fin W) (x : ℚ) : PlotState W :=
  let cur := st.store.getD (st.bufId w) []
  let newId := st.store.length
  let store1 := st.store ++ [roll1 cur]
  let store2 := store1.set newId (setLast (store1.getD newId []) (Val.val x))
  { store := store2
    bufId := Function.update st.bufId w newId
    lineId := Function.update st.lineId w newId }

/-- One full tick over all windows, in window order, pushing value
`vals w` into window `w`. -/
def tickPlot {W : ℕ} (st : PlotState W) (vals : Fin W → ℚ) : PlotState W :=
  (List.finRange W).foldl (fun s w => windowStep s w (vals w)) st

/-- Plot/heap state after `n` ticks of the stream `vs`. -/
def plotAfter {W : ℕ} (st : PlotState W) (vs : ℕ → Fin W → ℚ) : ℕ → PlotState W
  | 0 => st
  | n + 1 => tickPlot (plotAfter st vs n) (vs n)

/-- Well-formedness of the heap model: every reference held by a plot
line or by the buffers dict points at an allocated array. -/
def PlotWf {W : ℕ} (st : PlotState W) : Prop :=
  ∀ w : Fin W, st.lineId w < st.store.length ∧ st.bufId w < st.store.length


theorem pushVal_cons (h : Val) (t : List Val) (x : ℚ) :
    pushVal (h :: t) x = t ++ [Val.val x] := by
  simp [pushVal, roll1, setLast, List.dropLast_concat]

theorem pushVal_length (l : List Val) (x : ℚ) (h : l ≠ []) :
    (pushVal l x).length = l.length := by
  cases l with
  | nil => exact absurd rfl h
  | cons hd t => simp [pushVal_cons]

theorem pushAll_eq_drop : ∀ (xs : List ℚ) (l : List Val), l ≠ [] →
    pushAll l xs = (l ++ xs.map Val.val).drop xs.length
  | [], l, _ => by simp [pushAll]
  | x :: xs, [], h => absurd rfl h
  | x :: xs, hd :: t, _ => by
    have ht : (t ++ [Val.val x]) ≠ [] := by simp
    calc pushAll (hd :: t) (x :: xs)
        = pushAll (t ++ [Val.val x]) xs := by simp [pushAll, pushVal_cons]
      _ = ((t ++ [Val.val x]) ++ xs.map Val.val).drop xs.length := pushAll_eq_drop xs _ ht
      _ = ((hd :: t) ++ (x :: xs).map Val.val).drop (x :: xs).length := by
          simp [List.append_assoc]

/-- C5: for every capacity C > 0 and k pushes into a fresh rolling window
(an array pre-filled with the NaN sentinel, updated by roll-and-assign):
with k < C the contents are C - k leading sentinels followed by the k
pushed values in push order; with k ≥ C the contents are exactly the most
recent C pushed values in order, with no sentinel left, at length C. -/
theorem rolling_window_fill_pattern (C k : ℕ) (xs : List ℚ)
    (hC : 0 < C) (hk : xs.length = k) :
    (k < C →
      pushAll (List.replicate C Val.nan) xs
        = List.replicate (C - k) Val.nan ++ xs.map Val.val) ∧
    (C ≤ k →
      pushAll (List.replicate C Val.nan) xs = (xs.drop (k - C)).map Val.val
      ∧ (pushAll (List.replicate C Val.nan) xs).length = C
      ∧ Val.nan ∉ pushAll (List.replicate C Val.nan) xs) := by
  have hne : List.replicate C Val.nan ≠ [] := by
    apply List.length_pos.mp
    simpa using hC
  have hmaster := pushAll_eq_drop xs (List.replicate C Val.nan) hne
  rw [hk] at hmaster
  constructor
  · intro hlt
    rw [hmaster, List.drop_append_of_le_length (by simpa using Nat.le_of_lt hlt),
      List.drop_replicate]
  · intro hge
    have hsplit : k = (List.replicate C Val.nan).length + (k - C) := by
      simp [Nat.add_sub_cancel' hge]
    have heq : pushAll (List.replicate C Val.nan) xs = (xs.drop (k - C)).map Val.val := by
      rw [hmaster, hsplit, List.drop_append, List.map_drop]
      simp
    refine ⟨heq, ?_, ?_⟩
    · rw [heq]
      simp [hk]
      omega
    · rw [heq]
      intro hmem
      rcases List.mem_map.mp hmem with ⟨a, -, ha⟩
      exact absurd ha (by simp)

/-- C6: the rolling-window length is an invariant of the pipeline: the
capacity is the sample rate times the window duration (256 * 5), every
buffer starts at that length, and after any number of loop iterations
every raw window and every (band, channel) filtered window still has
exactly that length. -/
theorem window_length_invariant :
    buffer_size = 256 * 5 ∧
    ∀ (design : ℕ → ℚ → ℚ → List ℚ × List ℚ) (s : ℕ → Fin 4 → ℚ) (n : ℕ) (i k : Fin 4),
      ((buffersAfter design s n).raw i).length = buffer_size ∧
      ((buffersAfter design s n).filtered k i).length = buffer_size := by
  refine ⟨rfl, ?_⟩
  intro design s n
  induction n with
  | zero => intro i k; simp [buffersAfter, initBuffers]
  | succ n ih =>
    intro i k
    constructor
    · simp only [buffersAfter, tickBuffers]
      rw [pushVal_length _ _ (List.length_pos.mp (by rw [(ih i k).1]; norm_num [buffer_size])),
        (ih i k).1]
    · simp only [buffersAfter, tickBuffers]
      rw [pushVal_length _ _ (List.length_pos.mp (by rw [(ih i k).2]; norm_num [buffer_size])),
        (ih i k).2]

theorem lfilter_singleton (b a : List ℚ) (x : ℚ) :
    lfilter b a [x] = [(b.headD 0 / a.headD 1) * x] := by
  have hz : (List.replicate (max b.length a.length - 1) (0 : ℚ)).head?.getD 0 = 0 := by
    cases h : max b.length a.length - 1 <;> simp [List.replicate]
  simp [lfilter, lfilterStep, hz]

theorem bandpass_filter_ok (design : ℕ → ℚ → ℚ → List ℚ × List ℚ)
    (data : List ℚ) (lowcut highcut fsr : ℚ) (o : ℕ)
    (hchk : butterCheck (lowcut / (0.5 * fsr)) (highcut / (0.5 * fsr)) = none) :
    bandpass_filter design data lowcut highcut fsr o =
      Except.ok (lfilter (design o (lowcut / (0.5 * fsr)) (highcut / (0.5 * fsr))).1
        (design o (lowcut / (0.5 * fsr)) (highcut / (0.5 * fsr))).2 data) := by
  simp [bandpass_filter, hchk]

/-- C1 (code bug, evaluated): the code's streaming filter does not carry
its difference-equation memory between samples.  `bandpass_filter` runs
`lfilter` from the all-zero state on each fresh one-element input, so
with coefficients b = [1, 1], a = [1] (any coefficient set with a nonzero
memory tap exhibits this) the per-sample loop on the stream [1, 1] outputs
1 at both steps, whereas the same difference equation with its memory
preserved across the two samples (a single `lfilter` run over the stream)
outputs [1, 2]: the code's step-2 output ignores the step-1 input. -/
theorem filter_memory_reset_each_call :
    processSeq (fun _ _ _ => ([1, 1], [1])) 4 8 256 [1, 1] = [Except.ok 1, Except.ok 1] ∧
    lfilter [1, 1] [1] [1, 1] = [1, 2] ∧
    (processSeq (fun _ _ _ => ([1, 1], [1])) 4 8 256 [1, 1]).getD 1 (Except.ok 0)
      ≠ Except.ok ((lfilter [1, 1] [1] [1, 1]).getD 1 0) := by
  refine ⟨?_, ?_, ?_⟩ <;>
    norm_num [processSeq, bandpass_filter, butterCheck, lfilter, lfilterStep,
      Except.map, List.range_succ]

/-- C10: the per-sample filtering in the loop is pure and stateless — for
any coefficient design function, once butter's validation passes and the
designed denominator is normalized (a[0] = 1, as scipy's butter
guarantees), every per-sample call returns b[0] * x for its own sample x:
the whole per-sample output stream is a fixed per-band scaling of the
input stream, with no dependence on earlier calls. -/
theorem single_sample_filter_scaling
    (design : ℕ → ℚ → ℚ → List ℚ × List ℚ) (lowcut highcut fsr : ℚ) (xs : List ℚ)
    (hchk : butterCheck (lowcut / (0.5 * fsr)) (highcut / (0.5 * fsr)) = none)
    (ha : (design 4 (lowcut / (0.5 * fsr)) (highcut / (0.5 * fsr))).2.headD 1 = 1) :
    processSeq design lowcut highcut fsr xs
      = xs.map fun x =>
          Except.ok ((design 4 (lowcut / (0.5 * fsr)) (highcut / (0.5 * fsr))).1.headD 0 * x) := by
  unfold processSeq
  apply List.map_congr_left
  intro x _
  rw [bandpass_filter_ok design [x] lowcut highcut fsr 4 hchk, lfilter_singleton, ha, div_one]
  rfl

theorem single_sample_filter_scaling_witness :
    butterCheck ((4 : ℚ) / (0.5 * 256)) ((8 : ℚ) / (0.5 * 256)) = none ∧
    processSeq (fun _ _ _ => ([2], [1])) 4 8 256 [3] = [Except.ok 6] := by
  refine ⟨by norm_num [butterCheck], ?_⟩
  have h := single_sample_filter_scaling (fun _ _ _ => ([2], [1])) 4 8 256 [3]
    (by norm_num [butterCheck]) (by norm_num)
  rw [h]
  norm_num

/-- C8: filtering is deterministic and history-independent: running the
per-sample filter loop over the same input sequence twice in a row (two
separately constructed filter pipelines with identical arguments, one
after the other in the same process) yields two identical output
sequences, and the coefficient design is by construction a function of
(order, low, high) alone. -/
theorem filter_runs_deterministic
    (design : ℕ → ℚ → ℚ → List ℚ × List ℚ) (lowcut highcut fsr : ℚ) (xs : List ℚ) :
    (processSeq design lowcut highcut fsr (xs ++ xs)).take xs.length
      = processSeq design lowcut highcut fsr xs ∧
    (processSeq design lowcut highcut fsr (xs ++ xs)).drop xs.length
      = processSeq design lowcut highcut fsr xs := by
  unfold processSeq
  rw [List.map_append]
  constructor
  · exact List.take_left' (by simp)
  · exact List.drop_left' (by simp)

/-- C2 (counterexample): with the code's initialization
`last_save_time = time.time()` at startup (line 66, startup time 0 here)
and flush attempts at t = 0, 5, 19, 20, 25, the flush pattern is
[false, false, false, true, false]: there is no bootstrap flush at t = 0,
contradicting the claim that flushes occur exactly at t = 0 and t = 20. -/
theorem persistence_gate_no_bootstrap_flush :
    runGate 0 [0, 5, 19, 20, 25] = [false, false, false, true, false] ∧
    runGate 0 [0, 5, 19, 20, 25] ≠ [true, false, false, true, false] := by
  norm_num [runGate, saveBranch, save_interval]

/-- C2 (amended): the save branch flushes exactly when
`now - last_save_time >= save_interval`; on a flush it sets
`last_save_time` to a fresh clock reading taken after the write (equal to
the compared `now` only when the write is instantaneous), and
`last_save_time` is initialized at startup to the then-current time, so
there is no due-immediately bootstrap: with interval 20, startup at t = 0
and attempts at t = 0, 5, 19, 20, 25, the only flush is at t = 20. -/
theorem persistence_gate_flush_condition :
    (∀ (last now nowAfter : ℚ) (file : List (List Cell)) (row : List Cell),
      saveBranch last now nowAfter file row true =
        if save_interval ≤ now - last then Except.ok (true, nowAfter, writeCsv file row)
        else Except.ok (false, last, file)) ∧
    runGate 0 [0, 5, 19, 20, 25] = [false, false, false, true, false] := by
  constructor
  · intro last now nowAfter file row
    by_cases h : save_interval ≤ now - last <;> simp [saveBranch, h]
  · norm_num [runGate, saveBranch, save_interval]

/-- C3 (counterexample): the script has no filter-construction step that
validates band cutoffs — setting up the band table stores the entries
verbatim and cannot fail, so an invalid pair such as (10, 5) raises no
`InvalidBandError` at construction time; the rejection only happens
inside `bandpass_filter`, i.e. when a sample is filtered, and it is
scipy's `ValueError`, not an `InvalidBandError`. -/
theorem invalid_band_no_construction_error :
    bandsSetup [("Bad", 10, 5)] = [("Bad", 10, 5)] ∧
    bandpass_filter (fun _ _ _ => ([1], [1])) [0] 10 5 256 4
      = Except.error FilterError.bandNotIncreasing ∧
    bandpass_filter (fun _ _ _ => ([1], [1])) [0] 4 130 256 4
      = Except.error FilterError.freqOutOfRange := by
  refine ⟨rfl, ?_, ?_⟩ <;> norm_num [bandpass_filter, butterCheck]

/-- C3 (amended): the code performs no construction-time validation of
band cutoffs (band setup is a plain table store and always succeeds);
invalid cutoff pairs are rejected only at filter time, by scipy's
validation inside each `bandpass_filter` call, as a scipy `ValueError`
rather than an `InvalidBandError`: at rate 256, (low 10, high 5) fails
the increasing-band-edges check and (low 4, high 130) fails the
0 < Wn < 1 Nyquist check on every call, whatever the data. -/
theorem invalid_band_rejected_at_filter_time
    (design : ℕ → ℚ → ℚ → List ℚ × List ℚ) (data : List ℚ) :
    (∀ entries : List (String × ℚ × ℚ), bandsSetup entries = entries) ∧
    bandpass_filter design data 10 5 256 4 = Except.error FilterError.bandNotIncreasing ∧
    bandpass_filter design data 4 130 256 4 = Except.error FilterError.freqOutOfRange := by
  refine ⟨fun _ => rfl, ?_, ?_⟩ <;> norm_num [bandpass_filter, butterCheck]

/-- C4 (counterexample): with the sink failing at the due tick t = 21,
the loop exits immediately: `last_save_time` stays 0 and nothing was
written (that much agrees with the claim), but the tick at t = 22 is
never processed — the loop count stays 0 instead of reaching 2 — and the
sink exception passes through `handleTop` uncaught, so the sampling loop
terminates instead of continuing. -/
theorem sink_failure_terminates_loop :
    runLoop ⟨0, [], 0⟩ [(21, [Cell.num 0], false), (22, [Cell.num 0], true)]
      = (⟨0, [], 0⟩, some LoopExc.sinkIOError) ∧
    (runLoop ⟨0, [], 0⟩ [(21, [Cell.num 0], false), (22, [Cell.num 0], true)]).1.processed ≠ 2 ∧
    handleTop (some LoopExc.sinkIOError) = some LoopExc.sinkIOError := by
  norm_num [runLoop, loopTick, saveBranch, save_interval, handleTop]

/-- C4 (amended): if the CSV sink fails during a due flush,
`last_save_time` is indeed not advanced (the assignment on line 113 runs
after the `with` block), but the failure is not surfaced as a recoverable
`PersistenceError`: the only handler catches `KeyboardInterrupt`, so the
sink exception propagates out of the loop and the sampling loop
terminates — the remaining samples are never processed. -/
theorem sink_failure_uncaught_state_preserved
    (st : LoopSt) (now : ℚ) (row : List Cell) (ts : List (ℚ × List Cell × Bool))
    (hdue : save_interval ≤ now - st.last_save_time) :
    loopTick st (now, row, false) = Except.error LoopExc.sinkIOError ∧
    runLoop st ((now, row, false) :: ts) = (st, some LoopExc.sinkIOError) ∧
    handleTop (some LoopExc.sinkIOError) = some LoopExc.sinkIOError := by
  have h1 : loopTick st (now, row, false) = Except.error LoopExc.sinkIOError := by
    simp [loopTick, saveBranch, hdue]
  exact ⟨h1, by simp [runLoop, h1], rfl⟩

theorem sink_failure_uncaught_state_preserved_witness :
    save_interval ≤ (21 : ℚ) - (⟨0, [], 0⟩ : LoopSt).last_save_time ∧
    (loopTick ⟨0, [], 0⟩ (21, [], false) = Except.error LoopExc.sinkIOError ∧
     runLoop ⟨0, [], 0⟩ [(21, [], false)] = (⟨0, [], 0⟩, some LoopExc.sinkIOError) ∧
     handleTop (some LoopExc.sinkIOError) = some LoopExc.sinkIOError) :=
  ⟨by norm_num [save_interval],
    sink_failure_uncaught_state_preserved ⟨0, [], 0⟩ 21 [] [] (by norm_num [save_interval])⟩

theorem rowOf_ne_headerRow (inp : SaveInput) : rowOf inp ≠ headerRow := by
  simp [rowOf, headerRow]

theorem foldl_writeCsv_of_ne_nil (inps : List SaveInput) :
    ∀ (f : List (List Cell)), f ≠ [] →
      inps.foldl (fun acc inp => writeCsv acc (rowOf inp)) f = f ++ inps.map rowOf := by
  induction inps with
  | nil => intro f _; simp
  | cons x xs ih =>
    intro f hf
    obtain ⟨hd, t, rfl⟩ := List.exists_cons_of_ne_nil hf
    have hw : writeCsv (hd :: t) (rowOf x) = (hd :: t) ++ [rowOf x] := by
      simp [writeCsv]
    rw [List.foldl_cons, hw, ih _ (by simp), List.map_cons]
    simp

/-- C7: each persisted row has the schema [timestamp, raw channel values,
then for each band in order the latest filtered value of each channel]
(that is what `rowOf` builds, straight from lines 108-110), and over any
nonempty run of saves starting from an empty file the header row is
written exactly once, as the first row, with every subsequent write
appending a data row. -/
theorem csv_schema_and_header_once (inputs : List SaveInput) (h : inputs ≠ []) :
    runSaves inputs = headerRow :: inputs.map rowOf ∧
    (runSaves inputs).countP (fun r => decide (r = headerRow)) = 1 := by
  obtain ⟨x, xs, rfl⟩ := List.exists_cons_of_ne_nil h
  have h0 : runSaves (x :: xs) = [headerRow, rowOf x] ++ xs.map rowOf := by
    unfold runSaves
    rw [List.foldl_cons,
      show writeCsv [] (rowOf x) = [headerRow, rowOf x] from by simp [writeCsv],
      foldl_writeCsv_of_ne_nil xs _ (by simp)]
  constructor
  · rw [h0]; simp
  · have hz : (xs.map rowOf).countP (fun r => decide (r = headerRow)) = 0 := by
      rw [List.countP_eq_zero]
      intro r hr
      rcases List.mem_map.mp hr with ⟨inp, -, rfl⟩
      simp [rowOf_ne_headerRow]
    rw [h0]
    simp [List.countP_append, List.countP_cons, rowOf_ne_headerRow x, hz]

theorem csv_schema_and_header_once_witness :
    (((0, fun _ => 0, fun _ _ => [Val.val 0]) : SaveInput) :: []) ≠ [] ∧
    runSaves [((0, fun _ => 0, fun _ _ => [Val.val 0]) : SaveInput)]
      = headerRow :: [((0, fun _ => 0, fun _ _ => [Val.val 0]) : SaveInput)].map rowOf :=
  ⟨by simp,
    (csv_schema_and_header_once [((0, fun _ => 0, fun _ _ => [Val.val 0]) : SaveInput)]
      (by simp)).1⟩

theorem windowStep_store_length {W : ℕ} (st : PlotState W) (w : Fin W) (x : ℚ) :
    (windowStep st w x).store.length = st.store.length + 1 := by
  simp [windowStep]

theorem windowStep_store_preserve {W : ℕ} (st : PlotState W) (w : Fin W) (x : ℚ)
    (j : ℕ) (hj : j < st.store.length) :
    (windowStep st w x).store.getD j [] = st.store.getD j [] := by
  simp only [windowStep, List.getD, List.get?_eq_getElem?]
  rw [List.getElem?_set_ne (by omega)]
  simp [List.getElem?_append, hj]

theorem foldl_windowStep_preserve {W : ℕ} (vals : Fin W → ℚ) :
    ∀ (ws : List (Fin W)) (st : PlotState W) (j : ℕ), j < st.store.length →
      ((ws.foldl (fun s w => windowStep s w (vals w)) st).store.getD j []
        = st.store.getD j [])
  | [], st, j, _ => rfl
  | w :: ws, st, j, hj => by
    rw [List.foldl_cons,
      foldl_windowStep_preserve vals ws _ j (by rw [windowStep_store_length]; omega)]
    exact windowStep_store_preserve st w _ j hj

theorem foldl_windowStep_length_le {W : ℕ} (vals : Fin W → ℚ) :
    ∀ (ws : List (Fin W)) (st : PlotState W),
      st.store.length ≤ ((ws.foldl (fun s w => windowStep s w (vals w)) st).store.length)
  | [], _ => le_refl _
  | w :: ws, st => by
    rw [List.foldl_cons]
    calc st.store.length
        ≤ (windowStep st w (vals w)).store.length := by
          rw [windowStep_store_length]; omega
      _ ≤ _ := foldl_windowStep_length_le vals ws _

theorem tickPlot_preserve {W : ℕ} (st : PlotState W) (vals : Fin W → ℚ)
    (j : ℕ) (hj : j < st.store.length) :
    (tickPlot st vals).store.getD j [] = st.store.getD j [] :=
  foldl_windowStep_preserve vals (List.finRange W) st j hj

theorem tickPlot_length_le {W : ℕ} (st : PlotState W) (vals : Fin W → ℚ) :
    st.store.length ≤ (tickPlot st vals).store.length :=
  foldl_windowStep_length_le vals (List.finRange W) st

theorem windowStep_wf {W : ℕ} (st : PlotState W) (w : Fin W) (x : ℚ) (h : PlotWf st) :
    PlotWf (windowStep st w x) := by
  intro w2
  rw [show (windowStep st w x).lineId = Function.update st.lineId w st.store.length from rfl,
    show (windowStep st w x).bufId = Function.update st.bufId w st.store.length from rfl,
    windowStep_store_length]
  by_cases hw : w2 = w
  · subst hw
    simp
  · have h2 := h w2
    simp [Function.update_noteq hw]
    omega

theorem tickPlot_wf {W : ℕ} (st : PlotState W) (vals : Fin W → ℚ) (h : PlotWf st) :
    PlotWf (tickPlot st vals) := by
  unfold tickPlot
  generalize List.finRange W = ws
  induction ws generalizing st with
  | nil => exact h
  | cons w ws ih =>
    rw [List.foldl_cons]
    exact ih _ (windowStep_wf _ _ _ h)

theorem plotAfter_wf {W : ℕ} (st : PlotState W) (vs : ℕ → Fin W → ℚ) (h : PlotWf st) :
    ∀ n, PlotWf (plotAfter st vs n)
  | 0 => h
  | n + 1 => tickPlot_wf _ _ (plotAfter_wf st vs h n)

theorem plotAfter_length_mono {W : ℕ} (st : PlotState W) (vs : ℕ → Fin W → ℚ) (n : ℕ) :
    ∀ k, (plotAfter st vs n).store.length ≤ (plotAfter st vs (n + k)).store.length
  | 0 => le_refl _
  | k + 1 => le_trans (plotAfter_length_mono st vs n k) (tickPlot_length_le _ _)

/-- C9: the array a window's plot line receives at publication is a
point-in-time view that later pushes never mutate: `np.roll` allocates a
fresh array each tick and the only in-place write (`buf[-1] = x`) targets
that fresh array before it is published, so for every window the array
the line holds after tick n has exactly the same contents at every later
tick — the rendering sink is decoupled from subsequent buffer updates. -/
theorem published_snapshot_immutable {W : ℕ} (st : PlotState W) (vs : ℕ → Fin W → ℚ)
    (hwf : PlotWf st) (n k : ℕ) (w : Fin W) :
    (plotAfter st vs (n + k)).store.getD ((plotAfter st vs n).lineId w) []
      = (plotAfter st vs n).store.getD ((plotAfter st vs n).lineId w) [] := by
  induction k with
  | zero => rfl
  | succ k ih =>
    have hlt : (plotAfter st vs n).lineId w < (plotAfter st vs (n + k)).store.length :=
      lt_of_lt_of_le ((plotAfter_wf st vs hwf n w).1) (plotAfter_length_mono st vs n k)
    rw [show n + (k + 1) = (n + k) + 1 from rfl,
      show plotAfter st vs ((n + k) + 1) = tickPlot (plotAfter st vs (n + k)) (vs (n + k))
        from rfl,
      tickPlot_preserve _ _ _ hlt, ih]

theorem published_snapshot_immutable_witness :
    PlotWf (⟨[[Val.nan, Val.nan]], fun _ => 0, fun _ => 0⟩ : PlotState 1) ∧
    (plotAfter (⟨[[Val.nan, Val.nan]], fun _ => 0, fun _ => 0⟩ : PlotState 1)
        (fun _ _ => 1) (1 + 1)).store.getD
        ((plotAfter (⟨[[Val.nan, Val.nan]], fun _ => 0, fun _ => 0⟩ : PlotState 1)
          (fun _ _ => 1) 1).lineId 0) []
      = (plotAfter (⟨[[Val.nan, Val.nan]], fun _ => 0, fun _ => 0⟩ : PlotState 1)
          (fun _ _ => 1) 1).store.getD
          ((plotAfter (⟨[[Val.nan, Val.nan]], fun _ => 0, fun _ => 0⟩ : PlotState 1)
            (fun _ _ => 1) 1).lineId 0) [] := by
  have hwf : PlotWf (⟨[[Val.nan, Val.nan]], fun _ => 0, fun _ => 0⟩ : PlotState 1) := by
    intro w
    exact ⟨Nat.one_pos, Nat.one_pos⟩
  exact ⟨hwf, published_snapshot_immutable _ _ hwf 1 1 0⟩

theorem rolling_window_fill_pattern_witness :
    0 < 3 ∧ ([1, 2] : List ℚ).length = 2 ∧
      pushAll (List.replicate 3 Val.nan) [1, 2]
        = List.replicate (3 - 2) Val.nan ++ ([1, 2] : List ℚ).map Val.val :=
  ⟨by norm_num, by norm_num,
    (rolling_window_fill_pattern 3 2 [1, 2] (by norm_num) (by norm_num)).1 (by norm_num)⟩
